import Mathlib

/-!
Verification of the StaticSite build pipeline (src/build.py) against its
natural-language specification.  The Python source is shallowly embedded:
strings are Lean strings (manipulated through their character lists so that
every definition is structurally recursive and kernel-evaluable), Python
dicts are association lists with last-write-wins insertion, the filesystem
inputs (directory walks, file listings, manifest parse results) are passed
in explicitly, and external collaborators (the markdown engine, the
template engine, PIL) are abstracted at their call boundary exactly where
the source calls them.  Floating point arithmetic in the thumbnail width
computation is modelled by exact rationals, which agrees with the binary64
computation at every input used in a theorem below.
-/

namespace StaticSite

/-! ## Generic string and list utilities mirroring the Python primitives -/

/-- The single-quote character, written via its code point. -/
def sqChar : Char := Char.ofNat 39

/-- The double-quote character, written via its code point. -/
def dqChar : Char := Char.ofNat 34

/-- Whitespace set used by `shlex` and by `str.strip` / `str.split`
(space, tab, carriage return, newline; the inputs in this development are
ASCII so the unicode cases of Python never fire). -/
def pyWs (c : Char) : Bool :=
  c = ' ' ∨ c = Char.ofNat 9 ∨ c = Char.ofNat 13 ∨ c = Char.ofNat 10

/-- Python `str.strip()` on a character list. -/
def pyStripL (l : List Char) : List Char :=
  ((l.dropWhile pyWs).reverse.dropWhile pyWs).reverse

/-- Python `str.strip()`. -/
def pyStrip (s : String) : String := String.mk (pyStripL s.data)

/-- Python `str.strip(c)` for a single character `c` (strips every leading
and trailing occurrence of `c`). -/
def stripCharEnds (q : Char) (l : List Char) : List Char :=
  ((l.dropWhile (· = q)).reverse.dropWhile (· = q)).reverse

/-- Python `str.lstrip("/")`. -/
def pyLstripSlash (s : String) : String := String.mk (s.data.dropWhile (· = '/'))

/-- Auxiliary for splitting a character list on a separator character. -/
def splitOnCharAux (sep : Char) : List Char → List Char → List (List Char)
  | [], cur => [cur.reverse]
  | c :: rest, cur =>
    if c = sep then cur.reverse :: splitOnCharAux sep rest []
    else splitOnCharAux sep rest (c :: cur)

/-- Python `str.split(sep)` for a one-character separator. -/
def splitOnChar (sep : Char) (l : List Char) : List (List Char) :=
  splitOnCharAux sep l []

/-- Python `token.split(sep, 1)` for `sep = '='`: the part before the first
equals sign and the part after it. -/
def splitKV (tok : List Char) : List Char × List Char :=
  (tok.takeWhile (· ≠ '='), (tok.dropWhile (· ≠ '=')).drop 1)

/-- Does `pat` occur as a contiguous sublist of `s`?  Used to reason about
Python `str.replace`. -/
def containsSub (pat : List Char) : List Char → Bool
  | [] => pat.isPrefixOf []
  | c :: rest => pat.isPrefixOf (c :: rest) || containsSub pat rest

/-- Fuelled core of Python `str.replace(pat, "")`: scan left to right and
drop every non-overlapping occurrence of `pat`.  Fuel keeps the recursion
structural so that the kernel can evaluate it. -/
def listReplaceFuel : Nat → List Char → List Char → List Char
  | 0, s, _ => s
  | _ + 1, [], _ => []
  | fuel + 1, c :: rest, pat =>
    if pat ≠ [] ∧ pat.isPrefixOf (c :: rest) = true then
      listReplaceFuel fuel ((c :: rest).drop pat.length) pat
    else
      c :: listReplaceFuel fuel rest pat

/-- Python `s.replace(pat, "")` (for the nonempty patterns this pipeline
uses). -/
def listReplace (s pat : List Char) : List Char := listReplaceFuel s.length s pat

/-- Python `s.replace(pat, "")` on strings. -/
def pyReplace (s pat : String) : String := String.mk (listReplace s.data pat.data)

/-- One step of `os.path.join` on POSIX: a component starting with the
separator resets the path, otherwise exactly one separator is inserted
unless the accumulated path is empty or already ends with one. -/
def joinTwo (a b : String) : String :=
  if b.data.head? = some '/' then b
  else if a = "" ∨ a.data.getLast? = some '/' then a ++ b
  else a ++ "/" ++ b

/-- Python `os.path.join` on POSIX. -/
def pyJoin (parts : List String) : String :=
  match parts with
  | [] => ""
  | p :: rest => rest.foldl joinTwo p

/-- `pathlib.Path(name).suffix`: the substring from the last dot on, unless
that dot is the first or the last character of the name. -/
def pySuffix (name : String) : String :=
  let r := name.data.reverse
  let pre := r.takeWhile (· ≠ '.')
  let rest := r.dropWhile (· ≠ '.')
  if rest = [] ∨ pre = [] ∨ rest.drop 1 = [] then ""
  else String.mk ('.' :: pre.reverse)

/-- Insertion into a Python dict represented as an association list: an
existing key is overwritten in place, a new key is appended. -/
def dictInsert {α : Type} (d : List (String × α)) (k : String) (v : α) :
    List (String × α) :=
  if d.any (fun kv => kv.1 = k) then
    d.map (fun kv => if kv.1 = k then (k, v) else kv)
  else d ++ [(k, v)]

/-- Python `dict.get(k)` / `dict[k]` lookup. -/
def dictGet {α : Type} (d : List (String × α)) (k : String) : Option α :=
  List.lookup k d

/-- Python `dict.pop(k, None)`: drop the entry with the given key. -/
def removeKey {α : Type} (d : List (String × α)) (k : String) :
    List (String × α) :=
  d.filter (fun kv => kv.1 ≠ k)

/-- Python truthiness of an optional string (`None` and `""` are falsy). -/
def pyTruthy : Option String → Bool
  | none => false
  | some s => s ≠ ""

/-! ## shlex (posix mode, whitespace_split, no comment characters)

State machine of `shlex.shlex` as configured by `parse_attrs`
(src/build.py lines 29-39): whitespace separates tokens, single quotes are
literal, double quotes allow backslash escapes of the backslash and the
double quote, a backslash outside quotes escapes the next character, and an
unterminated quote or escape raises `ValueError` (modelled as `none`). -/

inductive ShState : Type where
  | norm : ShState
  | sq : ShState
  | dq : ShState
  | esc : ShState
  | dqesc : ShState
deriving DecidableEq

/-- Core loop of the shlex lexer; `cur` is the current token reversed,
`quoted` records whether the current token saw a quote (so that a quoted
empty string still yields a token). -/
def shlexAux : List Char → ShState → List Char → Bool → Option (List (List Char))
  | [], .norm, cur, quoted =>
    some (if cur ≠ [] ∨ quoted = true then [cur.reverse] else [])
  | [], _, _, _ => none
  | c :: rest, .norm, cur, quoted =>
    if pyWs c then
      if cur ≠ [] ∨ quoted = true then
        (shlexAux rest .norm [] false).map (fun ts => cur.reverse :: ts)
      else shlexAux rest .norm [] false
    else if c = sqChar then shlexAux rest .sq cur true
    else if c = dqChar then shlexAux rest .dq cur true
    else if c = '\\' then shlexAux rest .esc cur quoted
    else shlexAux rest .norm (c :: cur) quoted
  | c :: rest, .sq, cur, quoted =>
    if c = sqChar then shlexAux rest .norm cur quoted
    else shlexAux rest .sq (c :: cur) quoted
  | c :: rest, .dq, cur, quoted =>
    if c = dqChar then shlexAux rest .norm cur quoted
    else if c = '\\' then shlexAux rest .dqesc cur quoted
    else shlexAux rest .dq (c :: cur) quoted
  | c :: rest, .esc, cur, quoted => shlexAux rest .norm (c :: cur) quoted
  | c :: rest, .dqesc, cur, quoted =>
    if c = '\\' ∨ c = dqChar then shlexAux rest .dq (c :: cur) quoted
    else shlexAux rest .dq (c :: '\\' :: cur) quoted

/-- Tokenize an attribute string the way `parse_attrs` configures `shlex`.
`none` models the `ValueError` raised on an unterminated quote or escape. -/
def pyShlex (l : List Char) : Option (List (List Char)) :=
  shlexAux l .norm [] false

/-- Strip surrounding double quotes then surrounding single quotes from a
value, as `val.strip(dq).strip(sq)` does in `parse_attrs`. -/
def stripQuotes (v : List Char) : List Char :=
  stripCharEnds sqChar (stripCharEnds dqChar v)

/-- `parse_attrs` (src/build.py lines 29-39) applied to the token list the
lexer produced: every token containing an equals sign contributes a
key/value pair (the value with surrounding quotes stripped), every other
token is dropped. -/
def parse_attrs (toks : List (List Char)) : List (String × String) :=
  toks.foldl
    (fun acc tok =>
      if tok.contains '=' then
        dictInsert acc (String.mk (splitKV tok).1)
          (String.mk (stripQuotes (splitKV tok).2))
      else acc)
    []

/-! ## Element trees (xml.etree.ElementTree as used by the extensions) -/

/-- An ElementTree element: tag, attributes in insertion order, optional
text, children in insertion order. -/
inductive Elem : Type where
  | node (tag : String) (attrs : List (String × String)) (text : Option String)
      (children : List Elem)

/-- Tag of an element. -/
def Elem.tagOf : Elem → String
  | .node t _ _ _ => t

/-- Attribute list of an element. -/
def Elem.attrsOf : Elem → List (String × String)
  | .node _ a _ _ => a

/-- Text of an element. -/
def Elem.textOf : Elem → Option String
  | .node _ _ x _ => x

/-- Children of an element. -/
def Elem.childrenOf : Elem → List Elem
  | .node _ _ _ c => c

/-- Tags of the direct children of an element. -/
def childTags (e : Elem) : List String := e.childrenOf.map Elem.tagOf

/-- First direct child with the given tag. -/
def findChildTag (e : Elem) (t : String) : Option Elem :=
  e.childrenOf.find? (fun c => c.tagOf = t)

/-- Text of the first direct child with the given tag. -/
def childTextOfTag (e : Elem) (t : String) : Option String :=
  (findChildTag e t).bind Elem.textOf

/-- First direct child that is a paragraph with the given class attribute. -/
def findPara (e : Elem) (cls : String) : Option Elem :=
  e.childrenOf.find? (fun c => c.tagOf = "p" ∧ dictGet c.attrsOf "class" = some cls)

/-- The anchor child of a button container. -/
def anchorOf (e : Elem) : Option Elem := findChildTag e "a"

/-- The href attribute of the anchor child of a button container. -/
def anchorHref (e : Elem) : Option String :=
  (anchorOf e).bind (fun a => dictGet a.attrsOf "href")

/-! ## Button inline macro (ButtonTemplateInlineProcessor.handleMatch,
src/build.py lines 90-132) -/

/-- Parameter parsing of the button macro over the pipe-separated segments:
segments without an equals sign are dropped, the others are split at the
first equals sign with both sides whitespace-stripped. -/
def parseSegs (segs : List (List Char)) : List (String × String) :=
  segs.foldl
    (fun acc seg =>
      if seg.contains '=' then
        dictInsert acc (String.mk (pyStripL (splitKV seg).1))
          (String.mk (pyStripL (splitKV seg).2))
      else acc)
    []

/-- `params` built by `handleMatch` from the raw text captured by the
button regular expression. -/
def parseParams (raw : String) : List (String × String) :=
  parseSegs (splitOnChar '|' raw.data)

/-- Python `params.get(k, dflt)`. -/
def paramOr (ps : List (String × String)) (k dflt : String) : String :=
  (dictGet ps k).getD dflt

/-- `ButtonTemplateInlineProcessor.handleMatch` on the captured parameter
text: builds the link-card element exactly as src/build.py lines 100-132
(optional icon image first, then the anchor with heading, optional
description paragraph and optional date paragraph). -/
def handleMatch (raw : String) : Elem :=
  let params := parseParams raw
  let title := paramOr params "title" ""
  let icon := paramOr params "icon" ""
  let icontitle := paramOr params "icontitle" ""
  let description := paramOr params "description" ""
  let url := paramOr params "url" "#"
  let date := paramOr params "date" ""
  Elem.node "div" [("class", "linklistlink")] none
    ((if icon ≠ "" then
        [Elem.node "img" [("src", icon), ("title", icontitle), ("alt", icontitle)]
          none []]
      else []) ++
      [Elem.node "a" [("href", url)] none
        ([Elem.node "h3" [] (some title) []] ++
          (if description ≠ "" then
            [Elem.node "p" [("class", "desc")] (some description) []]
          else []) ++
          (if date ≠ "" then
            [Elem.node "p" [("class", "date")] (some date) []]
          else []))])

/-! ## Boxed section block extension (BoxedSectionProcessor,
src/build.py lines 42-84) -/

/-- Word characters of the `\w` class in the fence-start pattern (the
inputs here are ASCII). -/
def isWordChar (c : Char) : Bool := c.isAlphanum ∨ c = '_'

/-- Match of `^:::(\w+)(.*)$` against a stripped block: three colons, a
nonempty run of word characters, then the rest of the first line as the
attribute text; the anchor at the end of the pattern rejects any block
whose stripped text spans several lines. -/
def parseFenceStart (l : List Char) : Option (List Char × List Char) :=
  match l with
  | ':' :: ':' :: ':' :: rest =>
    let w := rest.takeWhile isWordChar
    let attrs := rest.dropWhile isWordChar
    if w = [] then none
    else if attrs.contains (Char.ofNat 10) then none
    else some (w, attrs)
  | _ => none

/-- The close-fence test: `^:::\s*$` matched against the stripped block,
which holds exactly when the stripped block is three colons. -/
def isFenceEnd (b : String) : Bool := pyStrip b = ":::"

/-- The consume loop of `BoxedSectionProcessor.run` (src/build.py lines
77-82): pop blocks until a close fence, returning the collected content
and the remaining blocks; with no close fence everything is consumed. -/
def consumeSection : List String → List String × List String
  | [] => ([], [])
  | b :: rest =>
    if isFenceEnd b then ([], rest)
    else
      let r := consumeSection rest
      (b :: r.1, r.2)

/-- The container element built by `BoxedSectionProcessor.run`: class with
or without the boxed modifier, optional heading from the title attribute,
remaining attributes set generically, and the consumed blocks that are
recursively parsed into it. -/
structure BoxedDiv : Type where
  className : String
  titleChild : Option String
  genAttrs : List (String × String)
  contentBlocks : List String
deriving DecidableEq

/-- Construction of the container from the lexed attribute tokens
(src/build.py lines 59-75): pop `boxed` (truthy value adds the modifier
class), pop `title` (truthy value emits the heading), set the rest as
generic attributes. -/
def mkBoxedDivAttrs (attrs : List (String × String)) (content : List String) :
    BoxedDiv :=
  let boxedv := dictGet attrs "boxed"
  let attrs1 := removeKey attrs "boxed"
  let titlev := dictGet attrs1 "title"
  let attrs2 := removeKey attrs1 "title"
  { className := if pyTruthy boxedv then "section boxed" else "section",
    titleChild := if pyTruthy titlev then titlev else none,
    genAttrs := attrs2,
    contentBlocks := content }

def mkBoxedDiv (toks : List (List Char)) (content : List String) : BoxedDiv :=
  mkBoxedDivAttrs (parse_attrs toks) content

/-- `BoxedSectionProcessor.run` on the opening block and the queue of
remaining blocks.  `none` models the early return on a failed match and
the `ValueError` a malformed quoted attribute raises inside shlex; the
result pairs the emitted container with the blocks left in the queue. -/
def boxedRun (block : String) (blocks : List String) :
    Option (BoxedDiv × List String) :=
  match parseFenceStart (pyStrip block).data with
  | none => none
  | some (_, attrStr) =>
    match pyShlex attrStr with
    | none => none
    | some toks =>
      some (mkBoxedDiv toks (consumeSection blocks).1, (consumeSection blocks).2)

/-! ## Data model (Page, SiteConfig) -/

/-- The per-directory page manifest model (pydantic `Page`,
src/build.py lines 140-158), with the same defaults. -/
structure Page : Type where
  title : String
  theme : String := "default"
  htmloverride : String := "main.lis"
  cssoverride : String := "main.lis"
  startdate : Option String := none
  enddate : Option String := none
  desc : String
  scripts : List String := []
  content : String
deriving DecidableEq

/-- The site configuration model (pydantic `SiteConfig`, src/build.py
lines 160-185), with the same defaults; the two `Literal` enumerations are
kept as strings since no claim depends on their validation. -/
structure SiteConfig : Type where
  sitedomain : String
  minifyhtml : Bool := true
  minifycss : Bool := true
  drawio : Bool := true
  drawiofmt : String := "png"
  drawioscale : Nat := 1
  thumbnails : Bool := true
  thumbsize : Nat := 600
  thumbalgo : String := "nearest"
  sitemap : Bool := true
  dateformats : List (String × String) := []
  staticexts : List (String × String) := []
  themes : List (String × String) := []
deriving DecidableEq

/-! ## Page discovery (findpages, src/build.py lines 259-285) -/

/-- One directory visited by `os.walk` under the content root: its path
components relative to that root (empty for the root itself), the names of
the files it contains, and the parse/validation result of its `page.json`
when the loop reads one (`none` models a manifest that fails `json.loads`
or pydantic validation). -/
structure DirEntry : Type where
  comps : List String
  files : List String
  manifest : Option Page
deriving DecidableEq

/-- `os.path.join(cfgdir, "pages")`, the content root. -/
def pagesRoot (cfgdir : String) : String := pyJoin [cfgdir, "pages"]

/-- Slash-joined relative path of a directory below the content root. -/
def joinComps : List String → String
  | [] => ""
  | [c] => c
  | c :: cs => c ++ "/" ++ joinComps cs

/-- The absolute directory path `os.walk` reports for an entry: the content
root itself, or the root extended by the slash-joined components. -/
def dirFullPath (cfgdir : String) (comps : List String) : String :=
  match comps with
  | [] => pagesRoot cfgdir
  | _ => pagesRoot cfgdir ++ "/" ++ joinComps comps

/-- The key `findpages` stores for a directory:
`pagedir[0].replace(os.path.join(cfgdir, "pages"), "")`. -/
def pagePathOf (cfgdir : String) (comps : List String) : String :=
  pyReplace (dirFullPath cfgdir comps) (pagesRoot cfgdir)

/-- Body of the `findpages` loop for one directory: skip on the ignore
marker, skip when no manifest file is present, skip when the manifest does
not validate, otherwise store the page under the replaced path. -/
def findpagesStep (cfgdir : String) (acc : List (String × Page)) (e : DirEntry) :
    List (String × Page) :=
  if ".ignore" ∈ e.files then acc
  else if "page.json" ∉ e.files then acc
  else
    match e.manifest with
    | none => acc
    | some p => dictInsert acc (pagePathOf cfgdir e.comps) p

/-- `findpages` (src/build.py lines 259-285) over the walked directory
tree. -/
def findpages (cfgdir : String) (tree : List DirEntry) : List (String × Page) :=
  tree.foldl (findpagesStep cfgdir) []

/-- A directory entry that survives every skip test of the loop. -/
def survives (e : DirEntry) : Prop :=
  ".ignore" ∉ e.files ∧ "page.json" ∈ e.files ∧ e.manifest.isSome = true

instance (e : DirEntry) : Decidable (survives e) := by
  unfold survives; infer_instance

/-! ## Page rendering (buildpages, src/build.py lines 287-335) -/

/-- Does the theme name appear among the template directories listed under
`<cfgdir>/templates`?  This is the membership test `theme in templates` of
src/build.py line 302. -/
def themeFound (templates : List (String × List String)) (theme : String) : Bool :=
  templates.any (fun t => t.1 = theme)

/-- Is the template name available inside the template directory of the
theme (`tmpl in templates[theme].list_templates()`, line 308)? -/
def templateFound (templates : List (String × List String)) (theme tmpl : String) :
    Bool :=
  ((List.lookup theme templates).getD []).contains tmpl

/-- The content file path of a page
(`os.path.join(cfgdir, "pages", pagepath.lstrip("/"), page.content)`). -/
def contentPath (cfgdir pagepath content : String) : String :=
  pyJoin [cfgdir, "pages", pyLstripSlash pagepath, content]

/-- Body of the `buildpages` loop for one page: unknown theme, missing
template and missing content file each log an error and skip the page;
otherwise the page is rendered (the markdown and template engines are
external) and written, which the model records by its path.  The
accumulator pairs the written page paths with the logged errors. -/
def buildpagesStep (cfgdir : String) (templates : List (String × List String))
    (fexists : String → Bool) (acc : List String × List String)
    (kv : String × Page) : List String × List String :=
  if themeFound templates kv.2.theme = false then
    (acc.1, acc.2 ++ ["Theme " ++ kv.2.theme ++ " not found"])
  else if templateFound templates kv.2.theme kv.2.htmloverride = false then
    (acc.1,
      acc.2 ++ ["Template " ++ kv.2.htmloverride ++ " not found in theme " ++ kv.2.theme])
  else if fexists (contentPath cfgdir kv.1 kv.2.content) then
    (acc.1 ++ [kv.1], acc.2)
  else
    (acc.1,
      acc.2 ++ ["File not found: " ++ contentPath cfgdir kv.1 kv.2.content ++ " for " ++ kv.1])

/-- `buildpages` (src/build.py lines 287-335): the site configuration is
passed (the loop reads only its minify toggle, which affects the rendered
bytes but not which pages are written), `templates` is the listing of the
template directories with their available template names, `fexists` the
existence test of the filesystem.  Every skip is recoverable: the function
always returns, it never aborts the build. -/
def buildpages (cfg : SiteConfig) (cfgdir : String)
    (templates : List (String × List String)) (fexists : String → Bool)
    (pages : List (String × Page)) : List String × List String :=
  pages.foldl (buildpagesStep cfgdir templates fexists) ([], [])

/-! ## Static copy-through (gatherstatic, src/build.py lines 337-364) -/

/-- Body of the walk inside `gatherstatic` for one file, given as its
directory components relative to the page directory plus its basename:
skip the manifest name and the declared content name wherever they occur,
copy the file when its suffix is a key of the static extension map. -/
def gatherstaticStep (content : String) (exts : List (String × String))
    (acc : List (List String × String)) (rf : List String × String) :
    List (List String × String) :=
  if rf.2 = "page.json" ∨ rf.2 = content then acc
  else if exts.any (fun x => x.1 = pySuffix rf.2) then acc ++ [rf]
  else acc

/-- The files `gatherstatic` copies out of one registered page directory
subtree (src/build.py lines 346-364). -/
def gatherstaticPage (content : String) (exts : List (String × String))
    (files : List (List String × String)) : List (List String × String) :=
  files.foldl (gatherstaticStep content exts) []

/-! ## Sitemap (sitemap, src/build.py lines 436-446) -/

/-- One `<url><loc>` line of the sitemap for a page path. -/
def sitemapEntry (domain k : String) : String :=
  "<url><loc>https://" ++ domain ++ k ++ "</loc></url>\n"

/-- The url lines of the sitemap: one per entry of the discovered page
mapping, in order. -/
def sitemapUrls (domain : String) (pages : List (String × Page)) : List String :=
  pages.map (fun kv => sitemapEntry domain kv.1)

/-- The full sitemap document written to `<output>/sitemap.xml`. -/
def sitemapXml (domain : String) (pages : List (String × Page)) : String :=
  "<?xml version=\"1.0\" encoding=\"UTF-8\"?>\n<urlset xmlns=\"http://www.sitemaps.org/schemas/sitemap/0.9\">\n"
    ++ String.join (sitemapUrls domain pages) ++ "</urlset>"

/-! ## Thumbnail width (thumbnails, src/build.py lines 367-389) -/

/-- Exact-arithmetic model of the width the `thumbnails` loop computes,
`wsize = int(float(W) * (thumbsize / float(H)))`: the float quotient and
product are modelled by exact rationals and `int` by the floor (the two
agree at every input used below). -/
def thumbWidthCode (w h t : Nat) : Int :=
  Int.floor ((w : ℚ) * ((t : ℚ) / (h : ℚ)))

/-- The width the specification prescribes for a thumbnail,
`round(original_width * threshold / original_height)`. -/
def thumbWidthSpec (w h t : Nat) : Int :=
  round (((w : ℚ) * (t : ℚ)) / (h : ℚ))

def strEndsWithSlash (s : String) : Bool := s.data.getLast? == some '/'

abbrev cexP1 : Page := { title := "Home", desc := "d", content := "index.md" }

abbrev cexP2 : Page := { title := "About", desc := "d", content := "index.md" }

abbrev cexAbout : DirEntry := ⟨["about"], ["page.json", "index.md"], some cexP2⟩

abbrev cexTree : List DirEntry :=
  [⟨[], ["page.json", "index.md"], some cexP1⟩, cexAbout]

abbrev cexIgnored : DirEntry := ⟨["secret"], [".ignore", "page.json", "index.md"], some cexP2⟩

abbrev cexTreeIg : List DirEntry := [⟨[], ["page.json", "index.md"], some cexP1⟩, cexIgnored]

/-- All three per-page checks of the buildpages loop succeed. -/
def renderOK (cfgdir : String) (templates : List (String × List String))
    (fexists : String → Bool) (k : String) (p : Page) : Prop :=
  themeFound templates p.theme = true
  ∧ templateFound templates p.theme p.htmloverride = true
  ∧ fexists (contentPath cfgdir k p.content) = true

instance (cfgdir : String) (templates : List (String × List String))
    (fexists : String → Bool) (k : String) (p : Page) :
    Decidable (renderOK cfgdir templates fexists k p) := by
  unfold renderOK; infer_instance

abbrev cexPBad : Page := { title := "About", theme := "missing", desc := "d", content := "index.md" }

abbrev cexTemplates : List (String × List String) := [("default", ["main.lis"])]

abbrev cexCfg : SiteConfig := { sitedomain := "example.com", themes := [("default", "default")] }

abbrev cexPages : List (String × Page) := [("", cexP1), ("/about", cexPBad)]

abbrev cexCfgNoThemes : SiteConfig := { sitedomain := "example.com", themes := [] }

def boxedTok (v : List Char) : List Char := "boxed=".data ++ v

def hasPara (e : Elem) (cls : String) : Bool := (findPara e cls).isSome

def paraText (e : Elem) (cls : String) : Option String := (findPara e cls).bind Elem.textOf

/-! ## Auxiliary lemmas -/

theorem isPrefixOf_append_self : ∀ (l t : List Char), l.isPrefixOf (l ++ t) = true := by
  intro l t
  induction l with
  | nil => simp [List.isPrefixOf]
  | cons a as ih => simp [List.isPrefixOf, ih]

theorem listReplaceFuel_no_occur :
    ∀ (fuel : Nat) (s pat : List Char), s.length ≤ fuel →
      containsSub pat s = false → listReplaceFuel fuel s pat = s := by
  intro fuel
  induction fuel with
  | zero => intro s pat _ _; rfl
  | succ n ih =>
    intro s pat hlen hocc
    cases s with
    | nil => rfl
    | cons c rest =>
      have h1 : pat.isPrefixOf (c :: rest) = false ∧ containsSub pat rest = false := by
        simpa [containsSub] using hocc
      have hcond : ¬ (pat ≠ [] ∧ pat.isPrefixOf (c :: rest) = true) := by
        intro hc
        rw [h1.1] at hc
        exact Bool.false_ne_true hc.2
      rw [listReplaceFuel, if_neg hcond]
      have hr : rest.length ≤ n := Nat.le_of_succ_le_succ (by simpa using hlen)
      rw [ih rest pat hr h1.2]

theorem listReplace_append_no_occur (pat s : List Char) (hp : pat ≠ [])
    (hocc : containsSub pat s = false) : listReplace (pat ++ s) pat = s := by
  cases pat with
  | nil => exact absurd rfl hp
  | cons q qt =>
    unfold listReplace
    have hlen : ((q :: qt) ++ s).length = (qt ++ s).length + 1 := by simp
    rw [hlen]
    have hpre : (q :: qt).isPrefixOf ((q :: qt) ++ s) = true := isPrefixOf_append_self _ _
    rw [List.cons_append] at hpre ⊢
    have hstep : listReplaceFuel ((qt ++ s).length + 1) (q :: (qt ++ s)) (q :: qt)
        = listReplaceFuel (qt ++ s).length ((q :: (qt ++ s)).drop (q :: qt).length) (q :: qt) := by
      rw [listReplaceFuel, if_pos ⟨hp, by rw [← List.cons_append] at hpre; simpa using hpre⟩]
    rw [hstep]
    have hdrop : (q :: (qt ++ s)).drop (q :: qt).length = s := by
      simpa using List.drop_left (q :: qt) s
    rw [hdrop]
    apply listReplaceFuel_no_occur
    · simp
    · exact hocc

theorem containsSub_nil_of_ne (pat : List Char) (hp : pat ≠ []) :
    containsSub pat [] = false := by
  cases pat with
  | nil => exact absurd rfl hp
  | cons q qt => rfl

theorem listReplace_self (pat : List Char) (hp : pat ≠ []) :
    listReplace pat pat = [] := by
  have h := listReplace_append_no_occur pat [] hp (containsSub_nil_of_ne pat hp)
  simpa using h

theorem pagesRoot_data_ne_nil (cfgdir : String) : (pagesRoot cfgdir).data ≠ [] := by
  unfold pagesRoot pyJoin joinTwo
  simp only [List.foldl]
  split
  · simp_all
  · split <;> simp [String.data_append]

theorem pagePathOf_nil (cfgdir : String) : pagePathOf cfgdir [] = "" := by
  unfold pagePathOf dirFullPath pyReplace
  rw [listReplace_self _ (pagesRoot_data_ne_nil cfgdir)]

theorem pagePathOf_cons (cfgdir : String) (c : String) (cs : List String)
    (hocc : containsSub (pagesRoot cfgdir).data ("/" ++ joinComps (c :: cs)).data = false) :
    pagePathOf cfgdir (c :: cs) = "/" ++ joinComps (c :: cs) := by
  unfold pagePathOf dirFullPath pyReplace
  rw [String.append_assoc, String.data_append]
  rw [listReplace_append_no_occur _ _ (pagesRoot_data_ne_nil cfgdir) hocc]

theorem dictInsert_keys {α : Type} (d : List (String × α)) (k : String) (v : α) :
    (dictInsert d k v).map Prod.fst
      = if d.any (fun kv => kv.1 = k) then d.map Prod.fst else d.map Prod.fst ++ [k] := by
  unfold dictInsert
  split
  · rw [List.map_map]
    apply List.map_congr_left
    intro kv _
    by_cases h : kv.1 = k <;> simp [h]
  · simp

theorem mem_keys_dictInsert {α : Type} (d : List (String × α)) (k : String) (v : α)
    (x : String) :
    x ∈ (dictInsert d k v).map Prod.fst ↔ x ∈ d.map Prod.fst ∨ x = k := by
  rw [dictInsert_keys]
  split
  · rename_i hany
    constructor
    · exact fun h => Or.inl h
    · rintro (h | rfl)
      · exact h
      · rcases List.any_eq_true.mp hany with ⟨kv, hkv, hk⟩
        have : kv.1 = x := by simpa using hk
        exact this ▸ List.mem_map_of_mem Prod.fst hkv
  · simp

theorem nodup_keys_dictInsert {α : Type} (d : List (String × α)) (k : String) (v : α)
    (h : (d.map Prod.fst).Nodup) : ((dictInsert d k v).map Prod.fst).Nodup := by
  rw [dictInsert_keys]
  split
  · exact h
  · rename_i hany
    have hk : k ∉ d.map Prod.fst := by
      intro hmem
      apply hany
      rcases List.mem_map.mp hmem with ⟨kv, hkv, hfst⟩
      exact List.any_eq_true.mpr ⟨kv, hkv, by simp [hfst]⟩
    simp [List.nodup_append, h, hk]

theorem lookup_dictInsert_self {α : Type} (d : List (String × α)) (k : String) (v : α) :
    dictGet (dictInsert d k v) k = some v := by
  induction d with
  | nil => simp [dictInsert, dictGet, List.lookup]
  | cons kv rest ih =>
    by_cases hk : kv.1 = k
    · have hany : (kv :: rest).any (fun kv => kv.1 = k) = true := by
        simp [List.any_cons, hk]
      simp only [dictInsert, hany, if_true, List.map_cons, if_pos hk]
      simp [dictGet, List.lookup]
    · by_cases hrest : rest.any (fun kv => kv.1 = k)
      · have hany : (kv :: rest).any (fun kv => kv.1 = k) = true := by
          simp [List.any_cons, hrest]
        simp only [dictInsert, hany, if_true, List.map_cons, if_neg hk]
        have hne : (k == kv.1) = false := by
          simp [BEq.beq]
          exact fun h => hk h.symm
        simp only [dictGet, List.lookup, hne]
        have := ih
        simp only [dictInsert, hrest, if_true] at this
        exact this
      · have hany : (kv :: rest).any (fun kv => kv.1 = k) = false := by
          simp [List.any_cons, hrest, hk]
        simp only [dictInsert, hany, Bool.false_eq_true, if_false]
        have hne : (k == kv.1) = false := by
          simp [BEq.beq]
          exact fun h => hk h.symm
        simp only [List.cons_append, dictGet, List.lookup, hne]
        have := ih
        simp only [dictInsert, hrest, Bool.false_eq_true, if_false] at this
        exact this

theorem findpagesStep_ignore (cfgdir : String) (acc : List (String × Page))
    (e : DirEntry) (h : ".ignore" ∈ e.files) : findpagesStep cfgdir acc e = acc := by
  simp [findpagesStep, h]

theorem findpagesStep_nojson (cfgdir : String) (acc : List (String × Page))
    (e : DirEntry) (h1 : ".ignore" ∉ e.files) (h2 : "page.json" ∉ e.files) :
    findpagesStep cfgdir acc e = acc := by
  simp [findpagesStep, h1, h2]

theorem findpagesStep_badmanifest (cfgdir : String) (acc : List (String × Page))
    (e : DirEntry) (h1 : ".ignore" ∉ e.files) (h2 : "page.json" ∈ e.files)
    (h3 : e.manifest = none) : findpagesStep cfgdir acc e = acc := by
  simp [findpagesStep, h1, h2, h3]

theorem findpagesStep_ok (cfgdir : String) (acc : List (String × Page))
    (e : DirEntry) (p : Page) (h1 : ".ignore" ∉ e.files) (h2 : "page.json" ∈ e.files)
    (h3 : e.manifest = some p) :
    findpagesStep cfgdir acc e = dictInsert acc (pagePathOf cfgdir e.comps) p := by
  simp [findpagesStep, h1, h2, h3]

theorem mem_keys_findpages_aux (cfgdir : String) :
    ∀ (tree : List DirEntry) (acc : List (String × Page)) (x : String),
      x ∈ (tree.foldl (findpagesStep cfgdir) acc).map Prod.fst ↔
        x ∈ acc.map Prod.fst ∨
          ∃ e ∈ tree, survives e ∧ pagePathOf cfgdir e.comps = x := by
  intro tree
  induction tree with
  | nil => simp
  | cons e rest ih =>
    intro acc x
    rw [List.foldl_cons, ih]
    have hskip : ∀ hacc : findpagesStep cfgdir acc e = acc, ¬ survives e →
        ((x ∈ acc.map Prod.fst ∨ ∃ e2 ∈ rest, survives e2 ∧ pagePathOf cfgdir e2.comps = x) ↔
          x ∈ acc.map Prod.fst ∨ ∃ e2 ∈ e :: rest, survives e2 ∧ pagePathOf cfgdir e2.comps = x) := by
      intro _ hns
      constructor
      · rintro (h | ⟨e2, he2, hs, hp⟩)
        · exact Or.inl h
        · exact Or.inr ⟨e2, List.mem_cons_of_mem _ he2, hs, hp⟩
      · rintro (h | ⟨e2, he2, hs, hp⟩)
        · exact Or.inl h
        · rcases List.mem_cons.mp he2 with rfl | he2
          · exact absurd hs hns
          · exact Or.inr ⟨e2, he2, hs, hp⟩
    by_cases hig : ".ignore" ∈ e.files
    · rw [findpagesStep_ignore cfgdir acc e hig]
      exact hskip (findpagesStep_ignore cfgdir acc e hig) (fun hs => hs.1 hig)
    · by_cases hpj : "page.json" ∈ e.files
      · cases hm : e.manifest with
        | none =>
          rw [findpagesStep_badmanifest cfgdir acc e hig hpj hm]
          exact hskip (findpagesStep_badmanifest cfgdir acc e hig hpj hm)
            (fun hs => absurd hs.2.2 (by simp [hm]))
        | some p =>
          rw [findpagesStep_ok cfgdir acc e p hig hpj hm, mem_keys_dictInsert]
          constructor
          · rintro ((h | rfl) | ⟨e2, he2, hs, hp⟩)
            · exact Or.inl h
            · exact Or.inr ⟨e, List.mem_cons_self e rest, ⟨hig, hpj, by simp [hm]⟩, rfl⟩
            · exact Or.inr ⟨e2, List.mem_cons_of_mem _ he2, hs, hp⟩
          · rintro (h | ⟨e2, he2, hs, hp⟩)
            · exact Or.inl (Or.inl h)
            · rcases List.mem_cons.mp he2 with rfl | he2
              · exact Or.inl (Or.inr hp.symm)
              · exact Or.inr ⟨e2, he2, hs, hp⟩
      · rw [findpagesStep_nojson cfgdir acc e hig hpj]
        exact hskip (findpagesStep_nojson cfgdir acc e hig hpj) (fun hs => absurd hs.2.1 hpj)

theorem mem_keys_findpages (cfgdir : String) (tree : List DirEntry) (x : String) :
    x ∈ (findpages cfgdir tree).map Prod.fst ↔
      ∃ e ∈ tree, survives e ∧ pagePathOf cfgdir e.comps = x := by
  unfold findpages
  rw [mem_keys_findpages_aux]
  simp

theorem nodup_keys_findpages_aux (cfgdir : String) :
    ∀ (tree : List DirEntry) (acc : List (String × Page)),
      (acc.map Prod.fst).Nodup →
      ((tree.foldl (findpagesStep cfgdir) acc).map Prod.fst).Nodup := by
  intro tree
  induction tree with
  | nil => intro acc h; simpa using h
  | cons e rest ih =>
    intro acc h
    rw [List.foldl_cons]
    apply ih
    unfold findpagesStep
    split
    · exact h
    · split
      · exact h
      · cases e.manifest with
        | none => exact h
        | some p => exact nodup_keys_dictInsert _ _ _ h

theorem nodup_keys_findpages (cfgdir : String) (tree : List DirEntry) :
    ((findpages cfgdir tree).map Prod.fst).Nodup :=
  nodup_keys_findpages_aux cfgdir tree [] (by simp)

/-- C1, amended.  For every valid page manifest in the walked content tree,
`findpages` stores exactly one entry for its directory (the key occurs once
in the mapping), and the key is the directory path relative to the content
root with forward-slash separators and a LEADING slash: the root directory
maps to the empty string (not to a slash) and a subdirectory maps to the
slash-prefixed relative path with no trailing slash.  The side condition in
the subdirectory case rules out a second occurrence of the content-root
string inside the relative path, where the global `str.replace` of the
source would strike again. -/
theorem findpages_key_unique_and_shape (cfgdir : String) (tree : List DirEntry)
    (e : DirEntry) (p : Page) (he : e ∈ tree) (hig : ".ignore" ∉ e.files)
    (hpj : "page.json" ∈ e.files) (hm : e.manifest = some p) :
    ((findpages cfgdir tree).map Prod.fst).count (pagePathOf cfgdir e.comps) = 1
    ∧ (e.comps = [] → pagePathOf cfgdir e.comps = "")
    ∧ (∀ c cs, e.comps = c :: cs →
        containsSub (pagesRoot cfgdir).data ("/" ++ joinComps (c :: cs)).data = false →
        pagePathOf cfgdir e.comps = "/" ++ joinComps (c :: cs)) := by
  refine ⟨?_, ?_, ?_⟩
  · exact List.count_eq_one_of_mem (nodup_keys_findpages cfgdir tree)
      ((mem_keys_findpages cfgdir tree _).mpr ⟨e, he, ⟨hig, hpj, by simp [hm]⟩, rfl⟩)
  · intro h; rw [h]; exact pagePathOf_nil cfgdir
  · intro c cs h hocc; rw [h]; exact pagePathOf_cons cfgdir c cs hocc

/-- Witness for C1: in a concrete two-page tree the about page receives key
`/about`, exactly once. -/
theorem findpages_key_unique_and_shape_witness :
    cexAbout ∈ cexTree
    ∧ ((findpages "site" cexTree).map Prod.fst).count (pagePathOf "site" cexAbout.comps) = 1
    ∧ pagePathOf "site" cexAbout.comps = "/" ++ joinComps ["about"] := by
  have h := findpages_key_unique_and_shape "site" cexTree cexAbout cexP2
    (by simp) (by decide) (by decide) (by decide)
  exact ⟨by simp, h.1, h.2.2 "about" [] (by decide) (by decide)⟩

/-- C1, counterexample to the claim as stated: on a concrete two-page tree
the computed mapping keys are the empty string (root) and `/about`; neither
ends in a slash, and the root key is not `/`. -/
theorem findpages_trailing_slash_false :
    findpages "site" cexTree = [("", cexP1), ("/about", cexP2)]
    ∧ strEndsWithSlash "/about" = false
    ∧ strEndsWithSlash "" = false
    ∧ (("" : String) == "/") = false := by decide

/-- C7.  A directory containing the `.ignore` marker contributes no entry
to the discovered page mapping, whatever its manifest contains (valid,
invalid or missing); the hypothesis that no other surviving directory maps
to the same key reflects the structural uniqueness of directory paths. -/
theorem findpages_ignore_excluded (cfgdir : String) (tree : List DirEntry)
    (e : DirEntry) (hig : ".ignore" ∈ e.files)
    (huniq : ∀ e2 ∈ tree, ".ignore" ∉ e2.files →
      pagePathOf cfgdir e2.comps ≠ pagePathOf cfgdir e.comps) :
    pagePathOf cfgdir e.comps ∉ (findpages cfgdir tree).map Prod.fst := by
  intro hmem
  rcases (mem_keys_findpages cfgdir tree _).mp hmem with ⟨e2, he2, hs, hp⟩
  exact huniq e2 he2 hs.1 hp

/-- Witness for C7: an ignored directory with a perfectly valid manifest is
absent from the mapping. -/
theorem findpages_ignore_excluded_witness :
    ".ignore" ∈ cexIgnored.files
    ∧ pagePathOf "site" cexIgnored.comps ∉ (findpages "site" cexTreeIg).map Prod.fst :=
  ⟨by decide, findpages_ignore_excluded "site" cexTreeIg cexIgnored (by decide) (by decide)⟩

theorem buildpagesStep_fst_skip (cfgdir : String)
    (templates : List (String × List String)) (fexists : String → Bool)
    (acc : List String × List String) (kv : String × Page)
    (h : ¬ renderOK cfgdir templates fexists kv.1 kv.2) :
    (buildpagesStep cfgdir templates fexists acc kv).1 = acc.1 := by
  unfold buildpagesStep
  by_cases h1 : themeFound templates kv.2.theme = false
  · rw [if_pos h1]
  · rw [if_neg h1]
    by_cases h2 : templateFound templates kv.2.theme kv.2.htmloverride = false
    · rw [if_pos h2]
    · rw [if_neg h2]
      by_cases h3 : fexists (contentPath cfgdir kv.1 kv.2.content) = true
      · exact absurd ⟨Bool.eq_true_of_ne_false h1, Bool.eq_true_of_ne_false h2, h3⟩ h
      · rw [if_neg h3]

theorem buildpagesStep_ok (cfgdir : String)
    (templates : List (String × List String)) (fexists : String → Bool)
    (acc : List String × List String) (kv : String × Page)
    (h : renderOK cfgdir templates fexists kv.1 kv.2) :
    buildpagesStep cfgdir templates fexists acc kv = (acc.1 ++ [kv.1], acc.2) := by
  unfold buildpagesStep
  rw [if_neg (by simp [h.1]), if_neg (by simp [h.2.1]), if_pos h.2.2]

theorem buildpagesStep_errors_mono (cfgdir : String)
    (templates : List (String × List String)) (fexists : String → Bool)
    (acc : List String × List String) (kv : String × Page) (x : String)
    (h : x ∈ acc.2) : x ∈ (buildpagesStep cfgdir templates fexists acc kv).2 := by
  unfold buildpagesStep
  split
  · exact List.mem_append_left _ h
  · split
    · exact List.mem_append_left _ h
    · split
      · exact h
      · exact List.mem_append_left _ h

theorem buildpages_errors_mono (cfgdir : String)
    (templates : List (String × List String)) (fexists : String → Bool) :
    ∀ (pages : List (String × Page)) (acc : List String × List String) (x : String),
      x ∈ acc.2 → x ∈ (pages.foldl (buildpagesStep cfgdir templates fexists) acc).2 := by
  intro pages
  induction pages with
  | nil => intro acc x h; simpa using h
  | cons kv rest ih =>
    intro acc x h
    rw [List.foldl_cons]
    exact ih _ x (buildpagesStep_errors_mono cfgdir templates fexists acc kv x h)

theorem buildpages_theme_error_aux (cfgdir : String)
    (templates : List (String × List String)) (fexists : String → Bool) :
    ∀ (pages : List (String × Page)) (acc : List String × List String)
      (k : String) (p : Page), (k, p) ∈ pages →
      themeFound templates p.theme = false →
      ("Theme " ++ p.theme ++ " not found")
        ∈ (pages.foldl (buildpagesStep cfgdir templates fexists) acc).2 := by
  intro pages
  induction pages with
  | nil => intro acc k p h; simp at h
  | cons kv rest ih =>
    intro acc k p hmem hth
    rw [List.foldl_cons]
    rcases List.mem_cons.mp hmem with heq | hmem
    · apply buildpages_errors_mono
      have hp : kv.2 = p := by rw [← heq]
      unfold buildpagesStep
      rw [hp, if_pos hth]
      exact List.mem_append_right _ (by simp)
    · exact ih _ k p hmem hth

theorem buildpages_written_aux (cfgdir : String)
    (templates : List (String × List String)) (fexists : String → Bool) :
    ∀ (pages : List (String × Page)) (acc : List String × List String) (x : String),
      x ∈ (pages.foldl (buildpagesStep cfgdir templates fexists) acc).1 ↔
        x ∈ acc.1 ∨ ∃ p : Page, (x, p) ∈ pages
          ∧ renderOK cfgdir templates fexists x p := by
  intro pages
  induction pages with
  | nil => simp
  | cons kv rest ih =>
    intro acc x
    rw [List.foldl_cons, ih]
    by_cases hok : renderOK cfgdir templates fexists kv.1 kv.2
    · rw [buildpagesStep_ok cfgdir templates fexists acc kv hok]
      constructor
      · rintro (h | ⟨p, hp, hc⟩)
        · rcases List.mem_append.mp h with h | h
          · exact Or.inl h
          · have hx : x = kv.1 := by simpa using h
            exact Or.inr ⟨kv.2, by rw [hx]; exact List.mem_cons_self kv rest, by rw [hx]; exact hok⟩
        · exact Or.inr ⟨p, List.mem_cons_of_mem _ hp, hc⟩
      · rintro (h | ⟨p, hp, hc⟩)
        · exact Or.inl (List.mem_append_left _ h)
        · rcases List.mem_cons.mp hp with heq | hp
          · have hx : x = kv.1 := by rw [← heq]
            exact Or.inl (List.mem_append_right _ (by simp [hx]))
          · exact Or.inr ⟨p, hp, hc⟩
    · have hfst := buildpagesStep_fst_skip cfgdir templates fexists acc kv hok
      rw [hfst]
      constructor
      · rintro (h | ⟨p, hp, hc⟩)
        · exact Or.inl h
        · exact Or.inr ⟨p, List.mem_cons_of_mem _ hp, hc⟩
      · rintro (h | ⟨p, hp, hc⟩)
        · exact Or.inl h
        · rcases List.mem_cons.mp hp with heq | hp
          · have hx : x = kv.1 := by rw [← heq]
            have hp2 : p = kv.2 := by rw [← heq]
            rw [hx, hp2] at hc
            exact absurd hc hok
          · exact Or.inr ⟨p, hp, hc⟩

theorem assoc_mem_eq_of_nodup_keys {α : Type} :
    ∀ (l : List (String × α)), (l.map Prod.fst).Nodup →
      ∀ (k : String) (a b : α), (k, a) ∈ l → (k, b) ∈ l → a = b := by
  intro l
  induction l with
  | nil => intro _ k a b h; simp at h
  | cons kv rest ih =>
    intro hnd k a b ha hb
    have hnd1 : kv.1 ∉ rest.map Prod.fst := (List.nodup_cons.mp (by simpa using hnd)).1
    have hnd2 : (rest.map Prod.fst).Nodup := (List.nodup_cons.mp (by simpa using hnd)).2
    rcases List.mem_cons.mp ha with ha1 | ha1 <;> rcases List.mem_cons.mp hb with hb1 | hb1
    · rw [← ha1] at hb1
      exact (Prod.mk.injEq _ _ _ _ ▸ hb1.symm).2
    · exfalso
      apply hnd1
      rw [← ha1]
      simpa using List.mem_map_of_mem Prod.fst hb1
    · exfalso
      apply hnd1
      rw [← hb1]
      simpa using List.mem_map_of_mem Prod.fst ha1
    · exact ih hnd2 k a b ha1 hb1

/-- C6, amended.  A page whose manifest references a theme name with no
directory of that name under the templates directory is skipped with a
logged page-level error: nothing is written for it, while every other page
whose theme, template and content resolve is still written; the loop is a
total function that never aborts, so per-page failures leave the exit code
untouched.  Note the test is against the templates directory listing: the
themes mapping of the site configuration is never consulted here. -/
theorem buildpages_unknown_theme_skipped (cfg : SiteConfig) (cfgdir : String)
    (templates : List (String × List String)) (fexists : String → Bool)
    (pages : List (String × Page)) (k : String) (page : Page)
    (hmem : (k, page) ∈ pages)
    (hthm : themeFound templates page.theme = false)
    (hnd : (pages.map Prod.fst).Nodup) :
    k ∉ (buildpages cfg cfgdir templates fexists pages).1
    ∧ ("Theme " ++ page.theme ++ " not found")
        ∈ (buildpages cfg cfgdir templates fexists pages).2
    ∧ ∀ (k2 : String) (p2 : Page), (k2, p2) ∈ pages →
        renderOK cfgdir templates fexists k2 p2 →
        k2 ∈ (buildpages cfg cfgdir templates fexists pages).1 := by
  refine ⟨?_, ?_, ?_⟩
  · intro hw
    rcases (buildpages_written_aux cfgdir templates fexists pages ([], []) k).mp hw with
      h | ⟨p, hp, hok⟩
    · simp at h
    · have : p = page := assoc_mem_eq_of_nodup_keys pages hnd k p page hp hmem
      rw [this] at hok
      exact Bool.false_ne_true (hthm ▸ hok.1)
  · exact buildpages_theme_error_aux cfgdir templates fexists pages ([], []) k page hmem hthm
  · intro k2 p2 hmem2 hok2
    exact (buildpages_written_aux cfgdir templates fexists pages ([], []) k2).mpr
      (Or.inr ⟨p2, hmem2, hok2⟩)

/-- Witness for C6: the about page with theme `missing` is skipped with the
exact error message while the root page is still written. -/
theorem buildpages_unknown_theme_skipped_witness :
    ("/about", cexPBad) ∈ cexPages
    ∧ themeFound cexTemplates cexPBad.theme = false
    ∧ "/about" ∉ (buildpages cexCfg "site" cexTemplates (fun _ => true) cexPages).1
    ∧ ("Theme " ++ cexPBad.theme ++ " not found")
        ∈ (buildpages cexCfg "site" cexTemplates (fun _ => true) cexPages).2
    ∧ "" ∈ (buildpages cexCfg "site" cexTemplates (fun _ => true) cexPages).1 := by
  have h := buildpages_unknown_theme_skipped cexCfg "site" cexTemplates (fun _ => true)
    cexPages "/about" cexPBad (by simp) (by decide) (by decide)
  exact ⟨by simp, by decide, h.1, h.2.1,
    h.2.2 "" cexP1 (by simp) (by decide)⟩

/-- C6, counterexample to the claim as stated: with an EMPTY configured
theme set but a `default` template directory on disk, a page referencing
theme `default` (absent from the configured theme set) is rendered and
written with no error, contradicting the claim that exactly such pages are
skipped. -/
theorem buildpages_config_themes_not_consulted :
    buildpages cexCfgNoThemes "site" cexTemplates (fun _ => true) [("", cexP1)]
      = ([""], [])
    ∧ cexCfgNoThemes.themes.any (fun t => t.1 = cexP1.theme) = false := by decide

/-- C3, amended.  The sitemap emits exactly one `url`/`loc` entry per entry
of the DISCOVERED page mapping (the mapping is never filtered by the
renderer, so pages the renderer skipped are included), each equal to
`https://` ++ the configured domain ++ the page key of `findpages`. -/
theorem sitemap_entry_per_discovered_page (domain : String)
    (pages : List (String × Page)) (kv : String × Page) (hkv : kv ∈ pages) :
    (sitemapUrls domain pages).length = pages.length
    ∧ sitemapEntry domain kv.1 ∈ sitemapUrls domain pages := by
  constructor
  · simp [sitemapUrls]
  · exact List.mem_map_of_mem _ hkv

/-- Witness for C3: the two-page mapping produces two entries, including
one for the about page. -/
theorem sitemap_entry_per_discovered_page_witness :
    ("/about", cexPBad) ∈ cexPages
    ∧ (sitemapUrls "example.com" cexPages).length = cexPages.length
    ∧ sitemapEntry "example.com" "/about" ∈ sitemapUrls "example.com" cexPages := by
  have h := sitemap_entry_per_discovered_page "example.com" cexPages ("/about", cexPBad) (by simp)
  exact ⟨by simp, h.1, h.2⟩

/-- C3, counterexample to the claim as stated: for the two-page site with
domain example.com whose about page references an unknown theme, the
renderer skips the about page yet the sitemap still contains an entry for
it, and the entries read `https://example.com` and
`https://example.com/about` rather than the claimed
`https://example.com/` and `https://example.com/about/`. -/
theorem sitemap_claim_false :
    buildpages cexCfg "site" cexTemplates (fun _ => true) cexPages
      = ([""], ["Theme missing not found"])
    ∧ sitemapUrls "example.com" cexPages
      = ["<url><loc>https://example.com</loc></url>\n",
         "<url><loc>https://example.com/about</loc></url>\n"]
    ∧ (sitemapUrls "example.com" cexPages
        == ["<url><loc>https://example.com/</loc></url>\n",
            "<url><loc>https://example.com/about/</loc></url>\n"]) = false := by decide

theorem consumeSection_no_close :
    ∀ (blocks : List String), (∀ b ∈ blocks, isFenceEnd b = false) →
      consumeSection blocks = (blocks, []) := by
  intro blocks
  induction blocks with
  | nil => intro _; rfl
  | cons b rest ih =>
    intro h
    have hb : isFenceEnd b = false := h b (List.mem_cons_self b rest)
    unfold consumeSection
    rw [hb]
    simp only [Bool.false_eq_true, if_false]
    rw [ih (fun x hx => h x (List.mem_cons_of_mem b hx))]

/-- C5.  When no block of the remaining input matches the close fence, the
boxed-section processor consumes every remaining block as the nested
content of the section, leaves nothing in the queue, and returns normally
(no error): `boxedRun` yields the container built from all remaining
blocks. -/
theorem boxed_unclosed_consumes_all (block : String) (blocks : List String)
    (ta : List Char × List Char) (toks : List (List Char))
    (hparse : parseFenceStart (pyStrip block).data = some ta)
    (hsh : pyShlex ta.2 = some toks)
    (hnoclose : ∀ b ∈ blocks, isFenceEnd b = false) :
    boxedRun block blocks = some (mkBoxedDiv toks blocks, []) := by
  obtain ⟨t1, t2⟩ := ta
  unfold boxedRun
  rw [hparse]
  simp only at hsh
  simp only [hsh, consumeSection_no_close blocks hnoclose]

/-- Witness for C5 on a concrete unclosed fence. -/
theorem boxed_unclosed_consumes_all_witness :
    (∀ b ∈ ["alpha", "beta"], isFenceEnd b = false)
    ∧ boxedRun ":::note" ["alpha", "beta"]
        = some (mkBoxedDiv [] ["alpha", "beta"], []) :=
  ⟨by decide,
   boxed_unclosed_consumes_all ":::note" ["alpha", "beta"] ("note".data, []) []
     (by decide) (by decide) (by decide)⟩

theorem foldl_skip_non_matching {α β : Type} (p : α → Bool) (f : β → α → β) :
    ∀ (l : List α) (acc : β),
      l.foldl (fun b a => if p a then f b a else b) acc
        = (l.filter p).foldl (fun b a => if p a then f b a else b) acc := by
  intro l
  induction l with
  | nil => intro acc; rfl
  | cons a rest ih =>
    intro acc
    by_cases h : p a = true
    · rw [List.filter_cons_of_pos h, List.foldl_cons, List.foldl_cons, ih]
    · rw [List.filter_cons_of_neg (by simpa using h), List.foldl_cons, if_neg (by simpa using h), ih]

theorem parse_attrs_filter (toks : List (List Char)) :
    parse_attrs toks = parse_attrs (toks.filter (fun t => t.contains '=')) :=
  foldl_skip_non_matching _ _ toks []

theorem boxedTok_contains (v : List Char) : (boxedTok v).contains '=' = true := by
  simp [boxedTok]

theorem boxedTok_mem_eq (v : List Char) : '=' ∈ boxedTok v := by
  simp [boxedTok]

theorem splitKV_boxedTok (v : List Char) :
    splitKV (boxedTok v) = ("boxed".data, v) := by
  simp [boxedTok, splitKV, List.takeWhile, List.dropWhile]

theorem string_mk_ne_empty_iff (l : List Char) : String.mk l ≠ "" ↔ l ≠ [] := by
  constructor
  · intro h hl
    exact h (by rw [hl])
  · intro h hs
    exact h (congrArg String.data hs)

theorem mkBoxedDivAttrs_genAttrs (attrs : List (String × String)) (content : List String) :
    (mkBoxedDivAttrs attrs content).genAttrs = removeKey (removeKey attrs "boxed") "title" := rfl

theorem removeKey_key_not_mem {α : Type} (d : List (String × α)) (k : String) :
    k ∉ (removeKey d k).map Prod.fst := by
  intro h
  rcases List.mem_map.mp h with ⟨kv, hkv, hfst⟩
  exact (by simpa using (List.mem_filter.mp hkv).2 : kv.1 ≠ k) hfst

theorem removeKey_sub {α : Type} (d : List (String × α)) (k2 : String) (x : String)
    (h : x ∈ ((removeKey d k2).map Prod.fst)) : x ∈ d.map Prod.fst := by
  rcases List.mem_map.mp h with ⟨kv, hkv, hfst⟩
  exact hfst ▸ List.mem_map_of_mem Prod.fst (List.mem_filter.mp hkv).1

/-- C8, amended.  The container class carries the boxed modifier iff the
LAST `boxed=<value>` token has a non-empty quote-stripped value (later
duplicate keys overwrite earlier ones in the attribute dict); tokens
without an equals sign, such as a bare `boxed`, are discarded entirely;
and neither `boxed` nor `title` ever appears among the generic attributes
of the emitted container. -/
theorem boxed_class_modifier_law (pre toks : List (List Char)) (v : List Char)
    (content : List String) :
    ((mkBoxedDiv (pre ++ [boxedTok v]) content).className = "section boxed"
      ↔ stripQuotes v ≠ [])
    ∧ mkBoxedDiv toks content = mkBoxedDiv (toks.filter (fun t => t.contains '=')) content
    ∧ "boxed" ∉ (mkBoxedDiv toks content).genAttrs.map Prod.fst
    ∧ "title" ∉ (mkBoxedDiv toks content).genAttrs.map Prod.fst := by
  refine ⟨?_, ?_, ?_, ?_⟩
  · have hattrs : parse_attrs (pre ++ [boxedTok v])
        = dictInsert (parse_attrs pre) "boxed" (String.mk (stripQuotes v)) := by
      unfold parse_attrs
      rw [List.foldl_append]
      simp [boxedTok_mem_eq, splitKV_boxedTok]
    have hget : dictGet (parse_attrs (pre ++ [boxedTok v])) "boxed"
        = some (String.mk (stripQuotes v)) := by
      rw [hattrs]; exact lookup_dictInsert_self _ _ _
    unfold mkBoxedDiv mkBoxedDivAttrs
    rw [hget]
    by_cases hv : stripQuotes v = []
    · rw [hv]
      simp [pyTruthy]
    · have hne : String.mk (stripQuotes v) ≠ "" := (string_mk_ne_empty_iff _).mpr hv
      simp [pyTruthy, hne, hv]
  · unfold mkBoxedDiv
    rw [parse_attrs_filter]
  · rw [mkBoxedDiv, mkBoxedDivAttrs_genAttrs]
    intro h
    exact removeKey_key_not_mem (parse_attrs toks) "boxed" (removeKey_sub _ _ _ h)
  · rw [mkBoxedDiv, mkBoxedDivAttrs_genAttrs]
    exact removeKey_key_not_mem _ "title"

/-- Witness for C8: a trailing `boxed=x` token adds the class, a bare
`boxed` token changes nothing, and `boxed` never leaks into the generic
attributes. -/
theorem boxed_class_modifier_law_witness :
    ((mkBoxedDiv ([] ++ [boxedTok "x".data]) []).className = "section boxed")
    ∧ mkBoxedDiv ["boxed".data] [] = mkBoxedDiv (["boxed".data].filter (fun t => t.contains '=')) []
    ∧ "boxed" ∉ (mkBoxedDiv ["boxed=1".data, "a=b".data] []).genAttrs.map Prod.fst :=
  ⟨(boxed_class_modifier_law [] [] "x".data []).1.mpr (by decide),
   (boxed_class_modifier_law [] ["boxed".data] "x".data []).2.1,
   (boxed_class_modifier_law [] ["boxed=1".data, "a=b".data] "x".data []).2.2.1⟩

/-- C8, counterexample to the claim as stated: the attribute string
`boxed=x boxed=` contains the token `boxed=x` whose value is non-empty,
yet the emitted container class is plain `section`, because the later
empty `boxed=` token overwrites the dict entry. -/
theorem boxed_class_iff_claim_false :
    pyShlex "boxed=x boxed=".data = some ["boxed=x".data, "boxed=".data]
    ∧ (mkBoxedDiv ["boxed=x".data, "boxed=".data] []).className = "section"
    ∧ ("boxed=x".data.contains '=') = true
    ∧ (splitKV "boxed=x".data).1 = "boxed".data
    ∧ stripQuotes (splitKV "boxed=x".data).2 = "x".data
    ∧ ("x".data == ([] : List Char)) = false
    ∧ (boxedRun ":::note boxed=x boxed=" [":::"]).map (fun r => r.1.className)
        = some "section" := by decide

theorem button_url_default_aux (raw : String)
    (h : dictGet (parseParams raw) "url" = none) :
    anchorHref (handleMatch raw) = some "#" := by
  have hurl : paramOr (parseParams raw) "url" "#" = "#" := by
    simp [paramOr, h]
  unfold handleMatch anchorHref anchorOf findChildTag
  by_cases hicon : paramOr (parseParams raw) "icon" "" ≠ ""
  · simp only [if_pos hicon, Elem.childrenOf]
    simp [List.find?, Elem.tagOf, hurl, dictGet, List.lookup]
  · simp only [if_neg hicon, Elem.childrenOf]
    simp [List.find?, Elem.tagOf, hurl, dictGet, List.lookup]

/-- C4.  The button macro on `title=Home|url=/|date=2024` yields the link
container (class `linklistlink`) whose anchor has href `/`, containing a
heading with text Home and a date paragraph with text 2024 and no
description paragraph; parameter segments lacking an equals sign are
dropped from the parameter set, and with no url parameter the href
defaults to `#`. -/
theorem button_example_and_defaults (segs : List (List Char)) (raw : String)
    (hurl : dictGet (parseParams raw) "url" = none) :
    (handleMatch "title=Home|url=/|date=2024").tagOf = "div"
    ∧ dictGet (handleMatch "title=Home|url=/|date=2024").attrsOf "class" = some "linklistlink"
    ∧ anchorHref (handleMatch "title=Home|url=/|date=2024") = some "/"
    ∧ ((anchorOf (handleMatch "title=Home|url=/|date=2024")).bind
        (fun a => childTextOfTag a "h3")) = some "Home"
    ∧ ((anchorOf (handleMatch "title=Home|url=/|date=2024")).bind
        (fun a => paraText a "date")) = some "2024"
    ∧ ((anchorOf (handleMatch "title=Home|url=/|date=2024")).map
        (fun a => hasPara a "desc")) = some false
    ∧ parseSegs segs = parseSegs (segs.filter (fun s => s.contains '='))
    ∧ anchorHref (handleMatch raw) = some "#" := by
  refine ⟨by decide, by decide, by decide, by decide, by decide, by decide, ?_, ?_⟩
  · exact foldl_skip_non_matching _ _ segs []
  · exact button_url_default_aux raw hurl

/-- Witness for C4: with the url parameter absent the href is `#`. -/
theorem button_example_and_defaults_witness :
    dictGet (parseParams "title=X|oops") "url" = none
    ∧ anchorHref (handleMatch "title=Home|url=/|date=2024") = some "/"
    ∧ parseSegs ["oops".data, "a=b".data]
        = parseSegs (["oops".data, "a=b".data].filter (fun s => s.contains '='))
    ∧ anchorHref (handleMatch "title=X|oops") = some "#" := by
  have h := button_example_and_defaults ["oops".data, "a=b".data] "title=X|oops" (by decide)
  exact ⟨by decide, h.2.2.1, h.2.2.2.2.2.2.1, h.2.2.2.2.2.2.2⟩

/-- C9.  With a non-empty icon parameter the icon image is the first direct
child of the button container, before and outside the anchor (whose
children contain no image), and both its alt and title attributes carry
the icontitle parameter value; with the icon parameter absent or empty no
image is emitted and the anchor is the only child. -/
theorem button_icon_placement (raw : String) :
    (paramOr (parseParams raw) "icon" "" ≠ "" →
      childTags (handleMatch raw) = ["img", "a"]
      ∧ ((handleMatch raw).childrenOf.head?.bind (fun i => dictGet i.attrsOf "alt"))
          = some (paramOr (parseParams raw) "icontitle" "")
      ∧ ((handleMatch raw).childrenOf.head?.bind (fun i => dictGet i.attrsOf "title"))
          = some (paramOr (parseParams raw) "icontitle" "")
      ∧ ((anchorOf (handleMatch raw)).map (fun a => (childTags a).contains "img"))
          = some false)
    ∧ (paramOr (parseParams raw) "icon" "" = "" →
      childTags (handleMatch raw) = ["a"]) := by
  constructor
  · intro hicon
    refine ⟨?_, ?_, ?_, ?_⟩
    · unfold handleMatch childTags
      simp only [if_pos hicon, Elem.childrenOf]
      simp [Elem.tagOf]
    · unfold handleMatch
      simp only [if_pos hicon, Elem.childrenOf]
      simp [dictGet, List.lookup, Elem.attrsOf]
    · unfold handleMatch
      simp only [if_pos hicon, Elem.childrenOf]
      simp [dictGet, List.lookup, Elem.attrsOf]
    · unfold handleMatch anchorOf findChildTag
      simp only [if_pos hicon, Elem.childrenOf]
      simp only [List.cons_append, List.nil_append, List.find?, Elem.tagOf]
      norm_num
      unfold childTags
      simp only [Elem.childrenOf]
      split_ifs <;> simp [Elem.tagOf]
  · intro hicon
    unfold handleMatch childTags
    simp only [if_neg (show ¬ (paramOr (parseParams raw) "icon" "" ≠ "") from
      fun hc => hc hicon), Elem.childrenOf]
    simp [Elem.tagOf]

/-- Witness for C9 at a concrete icon call and a concrete iconless call. -/
theorem button_icon_placement_witness :
    (paramOr (parseParams "icon=i.png|icontitle=I") "icon" "" ≠ ""
      ∧ childTags (handleMatch "icon=i.png|icontitle=I") = ["img", "a"]
      ∧ ((handleMatch "icon=i.png|icontitle=I").childrenOf.head?.bind
          (fun i => dictGet i.attrsOf "alt")) = some "I")
    ∧ (paramOr (parseParams "title=X") "icon" "" = ""
      ∧ childTags (handleMatch "title=X") = ["a"]) := by
  have h1 := (button_icon_placement "icon=i.png|icontitle=I").1 (by decide)
  have h2 := (button_icon_placement "title=X").2 (by decide)
  refine ⟨⟨by decide, h1.1, ?_⟩, ⟨by decide, h2⟩⟩
  have := h1.2.1
  simpa using this

theorem gatherstatic_mem_aux (content : String) (exts : List (String × String)) :
    ∀ (files : List (List String × String)) (acc : List (List String × String))
      (x : List String × String),
      x ∈ files.foldl (gatherstaticStep content exts) acc ↔
        x ∈ acc ∨ (x ∈ files ∧ ¬ (x.2 = "page.json" ∨ x.2 = content)
          ∧ exts.any (fun t => t.1 = pySuffix x.2) = true) := by
  intro files
  induction files with
  | nil => simp
  | cons f rest ih =>
    intro acc x
    rw [List.foldl_cons, ih]
    unfold gatherstaticStep
    by_cases h1 : f.2 = "page.json" ∨ f.2 = content
    · rw [if_pos h1]
      constructor
      · rintro (h | ⟨hf, hn, hs⟩)
        · exact Or.inl h
        · exact Or.inr ⟨List.mem_cons_of_mem _ hf, hn, hs⟩
      · rintro (h | ⟨hf, hn, hs⟩)
        · exact Or.inl h
        · rcases List.mem_cons.mp hf with rfl | hf
          · exact absurd h1 hn
          · exact Or.inr ⟨hf, hn, hs⟩
    · rw [if_neg h1]
      by_cases h2 : exts.any (fun t => t.1 = pySuffix f.2) = true
      · rw [if_pos h2]
        constructor
        · rintro (h | ⟨hf, hn, hs⟩)
          · rcases List.mem_append.mp h with h | h
            · exact Or.inl h
            · have hx : x = f := by simpa using h
              exact Or.inr ⟨by rw [hx]; exact List.mem_cons_self f rest, by rw [hx]; exact h1, by rw [hx]; exact h2⟩
          · exact Or.inr ⟨List.mem_cons_of_mem _ hf, hn, hs⟩
        · rintro (h | ⟨hf, hn, hs⟩)
          · exact Or.inl (List.mem_append_left _ h)
          · rcases List.mem_cons.mp hf with rfl | hf
            · exact Or.inl (List.mem_append_right _ (by simp))
            · exact Or.inr ⟨hf, hn, hs⟩
      · rw [if_neg h2]
        constructor
        · rintro (h | ⟨hf, hn, hs⟩)
          · exact Or.inl h
          · exact Or.inr ⟨List.mem_cons_of_mem _ hf, hn, hs⟩
        · rintro (h | ⟨hf, hn, hs⟩)
          · exact Or.inl h
          · rcases List.mem_cons.mp hf with rfl | hf
            · exact absurd hs h2
            · exact Or.inr ⟨hf, hn, hs⟩

/-- C10.  During the per-page static walk, every file whose basename is
`page.json` or equals the declared content filename is excluded from the
copy list in EVERY subdirectory of the page tree, not only at the top
level (the source compares basenames only); all other files with a
registered extension are copied. -/
theorem gatherstatic_excludes_reserved_names (content : String)
    (exts : List (String × String)) (files : List (List String × String))
    (rd : List String) (fn : String)
    (hname : fn = "page.json" ∨ fn = content) :
    (rd, fn) ∉ gatherstaticPage content exts files
    ∧ ∀ y ∈ files, ¬ (y.2 = "page.json" ∨ y.2 = content) →
        exts.any (fun t => t.1 = pySuffix y.2) = true →
        y ∈ gatherstaticPage content exts files := by
  constructor
  · intro h
    rcases (gatherstatic_mem_aux content exts files [] (rd, fn)).mp h with h | ⟨_, hn, _⟩
    · simp at h
    · exact hn hname
  · intro y hy hn hs
    exact (gatherstatic_mem_aux content exts files [] y).mpr (Or.inr ⟨hy, hn, hs⟩)

/-- Witness for C10: a `page.json` inside a subdirectory is not copied,
while an ordinary registered image is. -/
theorem gatherstatic_excludes_reserved_names_witness :
    ((["sub"], "page.json") ∉ gatherstaticPage "index.md" [(".png", "image")]
      [(["sub"], "page.json"), ([], "a.png"), (["sub"], "index.md")])
    ∧ ([], "a.png") ∈ gatherstaticPage "index.md" [(".png", "image")]
      [(["sub"], "page.json"), ([], "a.png"), (["sub"], "index.md")] := by
  have h := gatherstatic_excludes_reserved_names "index.md" [(".png", "image")]
    [(["sub"], "page.json"), ([], "a.png"), (["sub"], "index.md")] ["sub"] "page.json"
    (Or.inl rfl)
  exact ⟨h.1, h.2 ([], "a.png") (by simp) (by decide) (by decide)⟩

/-- C2.  The width formula of the `thumbnails` loop truncates with `int`
instead of rounding: at width 1001, height 1000 and threshold 600 the code
formula yields 600 while the specified `round(W*T/H)` yields 601, so even
on its arithmetic alone the code contradicts the specified dimension law
(and the loop cannot run at all, see the claim record: it lists the process
working directory and dereferences an undefined name `dirs`). -/
theorem thumbnails_width_truncates :
    thumbWidthCode 1001 1000 600 = 600
    ∧ thumbWidthSpec 1001 1000 600 = 601
    ∧ (thumbWidthCode 1001 1000 600 == thumbWidthSpec 1001 1000 600) = false := by
  have h1 : thumbWidthCode 1001 1000 600 = 600 := by
    unfold thumbWidthCode
    norm_num
  have h2 : thumbWidthSpec 1001 1000 600 = 601 := by
    unfold thumbWidthSpec
    rw [round_eq]
    norm_num
  refine ⟨h1, h2, ?_⟩
  rw [h1, h2]
  decide

end StaticSite
